import Mathlib

/-!
Shallow embedding of the token/upload lifecycle of the vrac file-sharing
server: the token/file ledger (src/db.rs), the storage-backend dispatch
(src/upload.rs, src/state.rs, src/handlers/upload.rs), the upload
orchestrator (src/handlers/upload.rs) and the retention sweeper
(src/cleanup.rs, src/bin/vrac.rs).

Timestamps are modelled as `Int` (seconds, UTC instants); the database
tables are modelled as lists of rows in insertion (rowid) order; SQL
`LIMIT 1` / `fetch_optional` become `List.take 1` / `List.find?`;
fallible operations return `Option` / `Except`.
-/

namespace Vrac

/-- A row of the `token` table (struct `DbToken` in src/db.rs). -/
structure DbToken where
  id : Int
  path : String
  maxSizeMib : Option Int
  validUntil : Int
  createdAt : Int
  contentExpiresAfterHours : Option Int
  deletedAt : Option Int
  attemptCounter : Int
  usedAt : Option Int
  contentExpiresAt : Option Int
  backendType : String
deriving Repr, DecidableEq

/-- A row of the `file` table (struct `DbFile` in src/db.rs). -/
structure DbFile where
  id : Int
  tokenId : Int
  attemptCounter : Int
  mimeType : Option String
  name : Option String
  backendType : String
  backendData : String
  createdAt : Int
  completedAt : Option Int
deriving Repr, DecidableEq

/-- Argument of `create_token` (struct `CreateToken` in src/db.rs). -/
structure CreateToken where
  path : String
  maxSizeMib : Option Int
  validUntil : Int
  contentExpiresAfterHours : Option Int
  backendType : String
deriving Repr, DecidableEq

/-- Upload session returned by `initiate_upload` (struct `UploadToken`). -/
structure UploadToken where
  id : Int
  path : String
  attemptCounter : Int
deriving Repr, DecidableEq

/-- Result of `get_valid_token` (enum `GetTokenResult` in src/db.rs). -/
inductive GetTokenResult where
  | notFound : GetTokenResult
  | fresh : DbToken → GetTokenResult
  | used : DbToken → GetTokenResult
deriving Repr, DecidableEq

/-- Result of `create_token`: `Err(TokenError::AlreadyExist)` or the new row. -/
inductive CreateTokenResult where
  | alreadyExist : CreateTokenResult
  | created : DbToken → CreateTokenResult
deriving Repr, DecidableEq

/-- The SQL row-scan predicate of `get_valid_token` (src/db.rs):
`deleted_at IS NULL AND (valid_until > now OR (content_expires_at is NULL OR
content_expires_at > now))`. -/
def scanPred (now : Int) (t : DbToken) : Bool :=
  t.deletedAt.isNone &&
    (now < t.validUntil || t.contentExpiresAt.isNone ||
      (match t.contentExpiresAt with
       | some e => now < e
       | none => false))

/-- The classification loop of `get_valid_token` over the fetched rows:
a row with `used_at` null is Fresh; a used row is Used unless both
`content_expires_after_hours` and `content_expires_at` are set with
`content_expires_at <= now`, in which case the loop continues. -/
def classifyLoop (now : Int) : List DbToken → GetTokenResult
  | [] => .notFound
  | t :: rest =>
    if t.usedAt.isNone then .fresh t
    else
      match t.contentExpiresAfterHours, t.contentExpiresAt with
      | none, _ => .used t
      | some _, none => .used t
      | some _, some e => if now < e then .used t else classifyLoop now rest

/-- Model of `get_valid_token` (src/db.rs): scan the token table for rows at `path`
satisfying `scanPred`, keeping at most one row (the SQL has `LIMIT 1`),
then classify. -/
def get_valid_token (tokens : List DbToken) (path : String) (now : Int) :
    GetTokenResult :=
  classifyLoop now ((tokens.filter fun t => t.path = path && scanPred now t).take 1)

/-- A single token row counts as live when it passes the scan predicate and
classifies as Fresh or Used (spec 3: fresh not-deleted not-expired, or
used and not content-expired). -/
def liveTok (now : Int) (t : DbToken) : Bool :=
  scanPred now t &&
    (match t.usedAt with
     | none => true
     | some _ =>
       match t.contentExpiresAfterHours, t.contentExpiresAt with
       | none, _ => true
       | some _, none => true
       | some _, some e => now < e)

/-- Model of `create_token` (src/db.rs): inside one transaction, re-run
`get_valid_token` for the path; on Fresh or Used abort with AlreadyExist,
otherwise insert a new row (defaults: `attempt_counter = 0`, timestamps
from `now`, nullable columns NULL). -/
def create_token (tokens : List DbToken) (ct : CreateToken) (now nextId : Int) :
    List DbToken × CreateTokenResult :=
  match get_valid_token tokens ct.path now with
  | .fresh _ => (tokens, .alreadyExist)
  | .used _ => (tokens, .alreadyExist)
  | .notFound =>
    let tok : DbToken :=
      { id := nextId
        path := ct.path
        maxSizeMib := ct.maxSizeMib
        validUntil := ct.validUntil
        createdAt := now
        contentExpiresAfterHours := ct.contentExpiresAfterHours
        deletedAt := none
        attemptCounter := 0
        usedAt := none
        contentExpiresAt := none
        backendType := ct.backendType }
    (tokens ++ [tok], .created tok)

/-- The re-fetch condition of `initiate_upload` (src/db.rs):
`id = ? AND deleted_at IS NULL AND valid_until > now AND used_at IS NULL`. -/
def uploadableBy (now tokId : Int) (t : DbToken) : Bool :=
  t.id = tokId && t.deletedAt.isNone && now < t.validUntil && t.usedAt.isNone

/-- Model of `initiate_upload` (src/db.rs): inside one transaction, re-fetch the
token by id with the narrowed freshness condition; on a miss fail with
NoTokenFound (modelled as `none`, the table is left unchanged because the
transaction never updated anything); otherwise bump `attempt_counter` by 1
(`UPDATE token SET attempt_counter=? WHERE id=?`) and return a session
carrying the new counter. -/
def initiate_upload (tokens : List DbToken) (tok : DbToken) (now : Int) :
    Option (List DbToken × UploadToken) :=
  match tokens.find? (uploadableBy now tok.id) with
  | none => none
  | some t =>
    let newCounter := t.attemptCounter + 1
    some
      (tokens.map fun u =>
        if u.id = tok.id then { u with attemptCounter := newCounter } else u,
       { id := tok.id, path := tok.path, attemptCounter := newCounter })

/-- Rust `h as u64` for `h : i64`: reinterpretation modulo 2^64. -/
def u64cast (h : Int) : Nat :=
  (h.emod (2 ^ 64)).toNat

/-- Rust `Duration::from_secs(3600 * (h as u64))`: the wrapping u64 product. -/
def expiresSecs (h : Int) : Nat :=
  (3600 * u64cast h) % 2 ^ 64

/-- Model of `finalise_token_upload` (src/db.rs): fetch the token by id
(`fetch_one`, an error when absent, modelled as `none`); compute
`content_expires_at = now + 3600 * hours` seconds when
`content_expires_after_hours` is set, NULL otherwise; then
`UPDATE token SET used_at=?, content_expires_at=? WHERE id=? AND
attempt_counter=?` and return success whatever the number of affected
rows. -/
def finalise_token_upload (tokens : List DbToken) (ut : UploadToken) (now : Int) :
    Option (List DbToken) :=
  match tokens.find? (fun t => t.id = ut.id) with
  | none => none
  | some t =>
    let expiresAt := t.contentExpiresAfterHours.map
      fun h => now + Int.ofNat (expiresSecs h)
    some
      (tokens.map fun u =>
        if u.id = ut.id && u.attemptCounter = ut.attemptCounter then
          { u with usedAt := some now, contentExpiresAt := expiresAt }
        else u)

/-- The WHERE clause of `get_files_to_delete` (src/db.rs), joined against
the token table: `(t.content_expires_at <= now) OR (t.attempt_counter >
f.attempt_counter) OR (t.used_at IS NULL AND t.valid_until <= now)`. -/
def fileToDelete (tokens : List DbToken) (now : Int) (f : DbFile) : Bool :=
  tokens.any fun t =>
    t.id = f.tokenId &&
      ((match t.contentExpiresAt with
        | some e => e ≤ now
        | none => false) ||
       f.attemptCounter < t.attemptCounter ||
       (t.usedAt.isNone && t.validUntil ≤ now))

/-- Model of `get_files_to_delete` (src/db.rs). -/
def get_files_to_delete (tokens : List DbToken) (files : List DbFile)
    (now : Int) : List DbFile :=
  files.filter (fileToDelete tokens now)

/-- Model of `delete_files` (src/db.rs): delete every file row whose id is listed. -/
def delete_files (files : List DbFile) (ids : List Int) : List DbFile :=
  files.filter fun f => !(ids.contains f.id)

/-- The WHERE clause of `delete_expired_tokens` (src/db.rs). -/
def tokenExpired (now : Int) (t : DbToken) : Bool :=
  (match t.contentExpiresAt with
   | some e => e ≤ now
   | none => false) ||
  (t.usedAt.isNone && t.validUntil ≤ now)

/-- Model of `delete_expired_tokens` (src/db.rs): remove the expired rows, returning
`(id, path)` of each deleted row. -/
def delete_expired_tokens (tokens : List DbToken) (now : Int) :
    List DbToken × List (Int × String) :=
  (tokens.filter fun t => !(tokenExpired now t),
   (tokens.filter (tokenExpired now)).map fun t => (t.id, t.path))

/-- The token-side conditions of the join in `get_valid_file` (src/db.rs):
`t.path=? AND t.deleted_at IS NULL AND t.used_at IS NOT NULL AND
(t.content_expires_after_hours IS NULL OR t.content_expires_at > now)`
(SQL three-valued logic: a NULL `content_expires_at` fails the
comparison). -/
def servableToken (now : Int) (path : String) (t : DbToken) : Bool :=
  t.path = path && t.deletedAt.isNone && t.usedAt.isSome &&
    (match t.contentExpiresAfterHours with
     | none => true
     | some _ =>
       match t.contentExpiresAt with
       | some e => now < e
       | none => false)

/-- Model of `get_valid_file` (src/db.rs): inner join of file and token,
`fetch_optional` returns the first matching file row. -/
def get_valid_file (tokens : List DbToken) (files : List DbFile)
    (path : String) (fileId : Int) (now : Int) : Option DbFile :=
  files.find? fun f =>
    f.id = fileId && f.completedAt.isSome &&
      tokens.any fun t => t.id = f.tokenId && servableToken now path t

/-! ### Storage backends and dispatch (src/upload.rs, src/state.rs,
src/cleanup.rs, src/handlers/upload.rs) -/

/-- The two storage-backend implementations held by `AppState`. -/
inductive BackendKind where
  | localFs : BackendKind
  | garage : BackendKind
deriving Repr, DecidableEq

/-- Tag `StorageBackend::get_type` of each implementation:
`"local_fs"` for `LocalFsUploader`, `"garage"` for `GarageUploader`. -/
def identifier : BackendKind → String
  | .localFs => "local_fs"
  | .garage => "garage"

/-- Blob-delete dispatch in `delete_file` (src/cleanup.rs): match on
`file.backend_type`; an unknown tag is logged and treated as `Ok(())`
(modelled as `none`: no backend is invoked and the outcome is success). -/
def deleteDispatch (backendType : String) : Option BackendKind :=
  if backendType = "local_fs" then some .localFs
  else if backendType = "garage" then some .garage
  else none

/-- Blob-read dispatch in `AppState::get_blob` (src/state.rs): match on
`backend_type`; an unknown tag is an `UnknownStorageBackend` error
(`none`). -/
def getBlobDispatch (backendType : String) : Option BackendKind :=
  if backendType = "local_fs" then some .localFs
  else if backendType = "garage" then some .garage
  else none

/-- Blob-read dispatch in `get_files_zip` (src/handlers/upload.rs): the
`"local_fs"` match arm parses the locator and reads the blob through
`state.garage`; every other tag (including `"garage"`) is rejected as
`UnknownStorageBackend` (`none`). -/
def zipReadDispatch (backendType : String) : Option BackendKind :=
  if backendType = "local_fs" then some .garage
  else none

/-- Argument of `StorageBackend::initiate_upload` (struct `InitFile`). -/
structure InitFile where
  tokenId : Int
  tokenPath : String
  fileIndex : Nat
  attemptCounter : Int
  mimeType : Option String
  fileName : Option String
deriving Repr, DecidableEq

/-- Zero padding as in the format specifier `{:02}` / `{:03}`. -/
def padZero (width : Nat) (s : String) : String :=
  if s.length < width then
    String.mk (List.replicate (width - s.length) '0') ++ s
  else s

/-- The blob name `format!("{}_{:02}_{:03}", token_id, attempt_counter, file_index)`
shared by `LocalFsUploader::initiate_upload` (as file path
under the base directory) and `GarageUploader::initiate_upload` (as the
fallback object key). -/
def defaultBlobName (tokenId attemptCounter : Int) (fileIndex : Nat) : String :=
  toString tokenId ++ "_" ++ padZero 2 (toString attemptCounter) ++ "_" ++
    padZero 3 (toString fileIndex)

/-- The file path chosen by `LocalFsUploader::initiate_upload`
(`base_path.push(format!(...))`). -/
def localFsPath (basePath : String) (tokenId attemptCounter : Int)
    (fileIndex : Nat) : String :=
  basePath ++ "/" ++ defaultBlobName tokenId attemptCounter fileIndex

/-- The `{bucket, key}` locator of the garage backend (struct
`GarageData` in src/upload.rs). -/
structure GarageData where
  bucket : String
  key : String
deriving Repr, DecidableEq

/-- The object key chosen by `GarageUploader::initiate_upload`: the
client-supplied filename when present, the default name otherwise. -/
def garageKey (init : InitFile) : String :=
  match init.fileName with
  | some name => name
  | none => defaultBlobName init.tokenId init.attemptCounter init.fileIndex

/-- The locator returned by `GarageUploader::initiate_upload`:
the uploader's configured bucket plus `garageKey`. -/
def garageInitiateData (bucket : String) (init : InitFile) : GarageData :=
  { bucket := bucket, key := garageKey init }

/-! ### Upload orchestrator (`post_upload_form`, src/handlers/upload.rs)

The handler streams every multipart field through the local-filesystem
backend. A field is modelled by the number of bytes its stream yields
plus its optional content type and filename; the blob store of the
local-fs backend is modelled as the list of file paths that exist under
the storage root. -/

/-- One multipart field of the upload request. -/
structure UploadField where
  size : Nat
  mimeType : Option String
  fileName : Option String
deriving Repr, DecidableEq

/-- The state touched by the upload orchestrator: both ledger tables, the
set of blob paths present in local-fs storage, and the next file rowid. -/
structure OrchState where
  tokens : List DbToken
  files : List DbFile
  blobs : List String
  nextFileId : Int
deriving Repr, DecidableEq

/-- Model of `create_file` (src/db.rs): insert an uncommitted file row stamped with
the session's attempt counter (`completed_at` NULL). -/
def create_file (files : List DbFile) (ut : UploadToken)
    (backendType backendData : String) (mime name : Option String)
    (now fid : Int) : List DbFile × DbFile :=
  let f : DbFile :=
    { id := fid
      tokenId := ut.id
      attemptCounter := ut.attemptCounter
      mimeType := mime
      name := name
      backendType := backendType
      backendData := backendData
      createdAt := now
      completedAt := none }
  (files ++ [f], f)

/-- Model of `finalise_file_upload` (src/db.rs): optionally overwrite
`backend_data`, then set `completed_at`, for the row with the given id. -/
def finalise_file_upload (files : List DbFile) (fid : Int)
    (newData : Option String) (now : Int) : List DbFile :=
  files.map fun f =>
    if f.id = fid then
      { f with backendData := newData.getD f.backendData, completedAt := some now }
    else f

/-- One iteration of the field loop of `post_upload_form`: open a local-fs
blob (create+write at the derived path), insert the uncommitted file row,
copy the field's bytes, then either discard (zero bytes: delete the blob
and the row) or finalise the file (`finish_write` returns no updated
locator for local fs). Returns the new state and the bytes copied. -/
def handleField (basePath : String) (ut : UploadToken) (now : Int)
    (st : OrchState) (idx : Nat) (field : UploadField) : OrchState × Nat :=
  let data := localFsPath basePath ut.id ut.attemptCounter idx
  let blobs := if st.blobs.contains data then st.blobs else st.blobs ++ [data]
  let created := create_file st.files ut "local_fs" data
    field.mimeType field.fileName now st.nextFileId
  if field.size = 0 then
    ({ st with
        blobs := blobs.filter fun p => p ≠ data
        files := delete_files created.1 [created.2.id]
        nextFileId := st.nextFileId + 1 }, 0)
  else
    ({ st with
        blobs := blobs
        files := finalise_file_upload created.1 created.2.id none now
        nextFileId := st.nextFileId + 1 }, field.size)

/-- The field loop of `post_upload_form`: `file_idx` starts at 0 and is
incremented before each field is handled; the bytes copied per field are
summed into the request's running total. -/
def uploadFields (basePath : String) (ut : UploadToken) (now : Int) :
    OrchState → Nat → List UploadField → OrchState × Nat
  | st, _, [] => (st, 0)
  | st, idx, field :: rest =>
    let step := handleField basePath ut now st (idx + 1) field
    let tail := uploadFields basePath ut now step.1 (idx + 1) rest
    (tail.1, step.2 + tail.2)

/-- Outcome of `post_upload_form`. -/
inductive UploadOutcome where
  | noLink : UploadOutcome
  | errNoToken : UploadOutcome
  | errFinalise : UploadOutcome
  | redirect : String → UploadOutcome
deriving Repr, DecidableEq

/-- Model of `post_upload_form` (src/handlers/upload.rs): resolve the token
(anything but Fresh renders the no-link page), `initiate_upload`
(NoTokenFound is a fatal request error), run the field loop, and
finalise the token only when the request copied at least one byte in
total; otherwise only log and leave the token untouched. -/
def post_upload_form (basePath : String) (path : String) (now : Int)
    (st : OrchState) (fields : List UploadField) : OrchState × UploadOutcome :=
  match get_valid_token st.tokens path now with
  | .notFound => (st, .noLink)
  | .used _ => (st, .noLink)
  | .fresh tok =>
    match initiate_upload st.tokens tok now with
    | none => (st, .errNoToken)
    | some (tokens1, ut) =>
      let run := uploadFields basePath ut now { st with tokens := tokens1 } 0 fields
      if run.2 = 0 then (run.1, .redirect path)
      else
        match finalise_token_upload run.1.tokens ut now with
        | none => (run.1, .errFinalise)
        | some tokens2 => ({ run.1 with tokens := tokens2 }, .redirect path)

/-! ### Retention sweeper (src/cleanup.rs, src/bin/vrac.rs) -/

/-- Outcome of the blob delete for one file in `delete_file`
(src/cleanup.rs): dispatch on `backend_type`; an unknown backend is
logged and treated as success; a known backend's `delete_blob` outcome is
given by the oracle `ok`. -/
def cleanupDeleteBlobOk (ok : BackendKind → String → Bool) (f : DbFile) : Bool :=
  match deleteDispatch f.backendType with
  | some b => ok b f.backendData
  | none => true

/-- One sweep cycle (`cleanup`, src/cleanup.rs): fetch the files to
delete; return early when there are none; attempt the blob deletes via
`try_join_all`, which yields the first failure (`DeleteBlobError`
carrying the file id, modelled as `Except.error file.id`) — in that case
the `?` aborts the cycle before any row deletion; otherwise delete all
the fetched file rows and then the expired tokens. -/
def cleanupCycle (tokens : List DbToken) (files : List DbFile) (now : Int)
    (ok : BackendKind → String → Bool) :
    Except Int (List DbToken × List DbFile) :=
  let td := get_files_to_delete tokens files now
  if td.isEmpty then .ok (tokens, files)
  else
    match td.find? (fun f => !cleanupDeleteBlobOk ok f) with
    | some f => .error f.id
    | none =>
      let files' := delete_files files (td.map fun f => f.id)
      .ok ((delete_expired_tokens tokens now).1, files')

/-- The file table after one sweep cycle: unchanged when the cycle
aborted with an error. -/
def cleanupFilesAfter (tokens : List DbToken) (files : List DbFile)
    (now : Int) (ok : BackendKind → String → Bool) : List DbFile :=
  match cleanupCycle tokens files now ok with
  | .ok st => st.2
  | .error _ => files

/-- Whether a cycle outcome is a success. -/
def cycleOk (r : Except String Unit) : Bool :=
  match r with
  | .ok _ => true
  | .error _ => false

/-- Model of `background_cleanup` (src/bin/vrac.rs) run against a finite prefix of
cycle outcomes: each loop iteration awaits `cleanup` and applies `?` to
its result, so the first failing cycle makes the function return that
error (terminating the loop); if every listed cycle succeeds the model
returns how many cycles ran. -/
def bgLoop : List (Except String Unit) → Except String Nat
  | [] => .ok 0
  | .error e :: _ => .error e
  | .ok _ :: rest =>
    match bgLoop rest with
    | .ok n => .ok (n + 1)
    | .error e => .error e

/-! ### Helper lemmas -/

/-- Mapping a function that is the identity on every member is the
identity. -/
lemma map_id_of_eq {α : Type} {l : List α} {f : α → α} (h : ∀ a ∈ l, f a = a) :
    l.map f = l := by
  induction l with
  | nil => rfl
  | cons a l ih =>
    simp only [List.map_cons]
    rw [h a (List.mem_cons_self a l), ih fun b hb => h b (List.mem_cons_of_mem a hb)]

/-- When a member satisfies the predicate and is the only one to do so,
`find?` returns it. -/
lemma find?_eq_some_of_unique {α : Type} {p : α → Bool} {l : List α} {a : α}
    (ha : a ∈ l) (hpa : p a = true) (huniq : ∀ b ∈ l, p b = true → b = a) :
    l.find? p = some a := by
  induction l with
  | nil => cases ha
  | cons b l ih =>
    by_cases hb : p b = true
    · rw [List.find?_cons_of_pos _ hb, huniq b (List.mem_cons_self b l) hb]
    · rw [List.find?_cons_of_neg _ hb]
      rcases List.mem_cons.mp ha with h | h
      · exact absurd (h ▸ hpa) hb
      · exact ih h fun c hc hpc => huniq c (List.mem_cons_of_mem _ hc) hpc

/-! ### Claim theorems -/

/-- Token used when the C3 witness finalises: id 5, counter 2, 2-hour
retention. -/
def finTok : DbToken :=
  { id := 5, path := "p", maxSizeMib := none, validUntil := 50, createdAt := 0,
    contentExpiresAfterHours := some 2, deletedAt := none, attemptCounter := 2,
    usedAt := none, contentExpiresAt := none, backendType := "local_fs" }

/-- A session whose attempt counter no longer matches `finTok`. -/
def finUtStale : UploadToken :=
  { id := 5, path := "p", attemptCounter := 9 }

/-- C3: `finalise_token_upload` sets `used_at` to the call time and
`content_expires_at` to exactly now + `content_expires_after_hours`*3600
seconds (NULL when the token has no expiry hours), updating only rows
whose id and attempt counter both match the session; when no row matches
both, the update affects zero rows, the table is unchanged and the call
still returns success. -/
theorem finalise_token_upload_spec (tokens : List DbToken) (ut : UploadToken)
    (now : Int) (t : DbToken)
    (hfind : tokens.find? (fun u => u.id = ut.id) = some t)
    (hhours : ∀ h, t.contentExpiresAfterHours = some h → 0 ≤ h ∧ 3600 * h < 2 ^ 64) :
    finalise_token_upload tokens ut now =
      some (tokens.map fun u =>
        if u.id = ut.id && u.attemptCounter = ut.attemptCounter then
          { u with usedAt := some now,
                   contentExpiresAt :=
                     t.contentExpiresAfterHours.map fun h => now + 3600 * h }
        else u) ∧
    ((∀ u ∈ tokens, ¬(u.id = ut.id ∧ u.attemptCounter = ut.attemptCounter)) →
      finalise_token_upload tokens ut now = some tokens) := by
  have hexp : (t.contentExpiresAfterHours.map fun h => now + Int.ofNat (expiresSecs h))
      = t.contentExpiresAfterHours.map fun h => now + 3600 * h := by
    cases hcase : t.contentExpiresAfterHours with
    | none => rfl
    | some h =>
      obtain ⟨h0, hlt⟩ := hhours h hcase
      have hp : (2 : Int) ^ 64 = 18446744073709551616 := by norm_num
      have hpN : (2 : Nat) ^ 64 = 18446744073709551616 := by norm_num
      rw [hp] at hlt
      have h1 : Int.emod h 18446744073709551616 = h :=
        Int.emod_eq_of_lt h0 (by omega)
      have h2 : 3600 * h.toNat < 18446744073709551616 := by omega
      simp only [Option.map_some', expiresSecs, u64cast, hp, hpN, h1,
        Nat.mod_eq_of_lt h2, Int.ofNat_eq_natCast]
      congr 1
      omega
  constructor
  · simp only [finalise_token_upload, hfind, hexp]
  · intro hnone
    simp only [finalise_token_upload, hfind]
    congr 1
    apply map_id_of_eq
    intro u hu
    have hcond : (u.id = ut.id && u.attemptCounter = ut.attemptCounter) = false := by
      have := hnone u hu
      simp only [Bool.and_eq_false_iff, decide_eq_false_iff_not]
      by_contra hcontra
      push_neg at hcontra
      exact this hcontra
    simp [hcond]

/-- C3 witness: finalising with a stale attempt counter leaves the
concrete one-token table unchanged and still succeeds. -/
theorem finalise_token_upload_spec_witness :
    finalise_token_upload [finTok] finUtStale 100 = some [finTok] :=
  (finalise_token_upload_spec [finTok] finUtStale 100 finTok (by decide)
    (by
      intro h hh
      have : h = 2 := by
        have := congrArg (fun o => o.getD 0) hh
        simpa [finTok] using this.symm
      subst this
      norm_num)).2 (by decide)

/-- C4 counterexample: a failing sweep cycle does not make the
background loop continue: with cycle outcomes [error, ok] the model of
`background_cleanup` returns the first cycle's error, terminating the
sweeper instead of logging and moving on to the next cycle. -/
theorem bgLoop_error_not_continued :
    bgLoop [Except.error "boom", Except.ok ()] = Except.error "boom" := rfl

/-- C4 (amended): after any prefix of successful cycles, the first cycle
error is returned by `background_cleanup` — the `?` operator propagates
it out of the loop (and `try_join!` in main makes it fatal to the
process); the cycles listed after the failure are never consumed. -/
theorem bgLoop_stops_at_first_error (pre : List (Except String Unit)) (e : String)
    (rest : List (Except String Unit)) (hok : ∀ c ∈ pre, cycleOk c = true) :
    bgLoop (pre ++ Except.error e :: rest) = Except.error e := by
  induction pre with
  | nil => rfl
  | cons c pre ih =>
    cases c with
    | error e' =>
      exact absurd (hok _ (List.mem_cons_self _ _)) (by simp [cycleOk])
    | ok u =>
      cases u
      simp only [List.cons_append, bgLoop, List.append_eq]
      rw [ih fun c hc => hok c (List.mem_cons_of_mem _ hc)]

/-- C4 witness: one successful cycle followed by a failure makes the
sweeper loop return the failure. -/
theorem bgLoop_stops_at_first_error_witness :
    bgLoop [Except.ok (), Except.error "disk full", Except.ok ()] =
      Except.error "disk full" :=
  bgLoop_stops_at_first_error [Except.ok ()] "disk full" [Except.ok ()] (by decide)

/-- Token whose content expired at t=5, with two files due for sweep. -/
def swTokExpired : DbToken :=
  { id := 1, path := "p", maxSizeMib := none, validUntil := 3, createdAt := 0,
    contentExpiresAfterHours := some 1, deletedAt := none, attemptCounter := 1,
    usedAt := some 1, contentExpiresAt := some 5, backendType := "local_fs" }

/-- File whose blob delete fails under `swOracle`. -/
def swFileFail : DbFile :=
  { id := 10, tokenId := 1, attemptCounter := 1, mimeType := none, name := none,
    backendType := "garage", backendData := "b1", createdAt := 1,
    completedAt := some 2 }

/-- File whose blob delete succeeds under `swOracle`. -/
def swFileOk : DbFile :=
  { id := 11, tokenId := 1, attemptCounter := 1, mimeType := none, name := none,
    backendType := "local_fs", backendData := "b2", createdAt := 1,
    completedAt := some 2 }

/-- Delete outcome oracle: only the blob stored under locator "b1" fails. -/
def swOracle : BackendKind → String → Bool :=
  fun _ data => data ≠ "b1"

/-- C1 counterexample: with two files due for deletion, the first one's
blob delete failing and the second one's succeeding, the sweep cycle
aborts with the first error before `delete_files`: the file table is
unchanged, so the row of the file whose blob delete succeeded is not
removed — the claim predicts the table [swFileFail] (rows of exactly the
successful files removed), but the cycle leaves both rows. -/
theorem cleanup_partial_failure_cx :
    cleanupDeleteBlobOk swOracle swFileOk = true ∧
    cleanupDeleteBlobOk swOracle swFileFail = false ∧
    get_files_to_delete [swTokExpired] [swFileFail, swFileOk] 10 =
      [swFileFail, swFileOk] ∧
    cleanupCycle [swTokExpired] [swFileFail, swFileOk] 10 swOracle =
      Except.error 10 ∧
    cleanupFilesAfter [swTokExpired] [swFileFail, swFileOk] 10 swOracle ≠
      [swFileFail] ∧
    cleanupFilesAfter [swTokExpired] [swFileFail, swFileOk] 10 swOracle =
      [swFileFail, swFileOk] :=
  ⟨by decide, by decide, by decide, rfl, by decide, by decide⟩

/-- C1 (amended): the sweep cycle removes ledger rows only when every
blob delete of the batch succeeded — in which case it removes the rows
of all fetched files; any blob-delete failure aborts the cycle before
`delete_files`, leaving every file row (including those whose blob
delete succeeded) in place for the next cycle. -/
theorem cleanup_rows_after_cycle (tokens : List DbToken) (files : List DbFile)
    (now : Int) (ok : BackendKind → String → Bool) :
    cleanupFilesAfter tokens files now ok =
      if (get_files_to_delete tokens files now).all (cleanupDeleteBlobOk ok) then
        delete_files files ((get_files_to_delete tokens files now).map fun f => f.id)
      else files := by
  unfold cleanupFilesAfter cleanupCycle
  cases hemp : (get_files_to_delete tokens files now).isEmpty with
  | true =>
    have hnil : get_files_to_delete tokens files now = [] := by
      simpa using hemp
    simp [hnil, delete_files]
  | false =>
    cases hfind : (get_files_to_delete tokens files now).find?
        (fun f => !cleanupDeleteBlobOk ok f) with
    | some f =>
      have hmem := List.mem_of_find?_eq_some hfind
      have hpf := List.find?_some hfind
      have hall : (get_files_to_delete tokens files now).all
          (cleanupDeleteBlobOk ok) = false := by
        cases hb : (get_files_to_delete tokens files now).all
            (cleanupDeleteBlobOk ok) with
        | false => rfl
        | true =>
          have := List.all_eq_true.mp hb f hmem
          rw [this] at hpf
          cases hpf
      simp [hemp, hfind, hall]
    | none =>
      have hall : (get_files_to_delete tokens files now).all
          (cleanupDeleteBlobOk ok) = true := by
        rw [List.all_eq_true]
        intro x hx
        have := List.find?_eq_none.mp hfind x hx
        simpa using this
      simp [hemp, hfind, hall]

/-- Used token whose content expired at t=5 but whose `valid_until` is
still in the future at t=10, stored before the live token. -/
def tokUsedExpired : DbToken :=
  { id := 1, path := "p", maxSizeMib := none, validUntil := 20, createdAt := 0,
    contentExpiresAfterHours := some 1, deletedAt := none, attemptCounter := 1,
    usedAt := some 1, contentExpiresAt := some 5, backendType := "local_fs" }

/-- A live fresh token at the same path, stored after the dead one. -/
def tokFreshLive : DbToken :=
  { id := 2, path := "p", maxSizeMib := none, validUntil := 20, createdAt := 6,
    contentExpiresAfterHours := some 1, deletedAt := none, attemptCounter := 0,
    usedAt := none, contentExpiresAt := none, backendType := "local_fs" }

/-- A request to create yet another token at the same path. -/
def ctShadow : CreateToken :=
  { path := "p", maxSizeMib := none, validUntil := 30,
    contentExpiresAfterHours := some 1, backendType := "local_fs" }

/-- C5: the `LIMIT 1` scan of `get_valid_token` lets a dead row shadow a
live one: with a used-but-content-expired token (still inside its
`valid_until`) stored before a live fresh token at the same path, the
scan fetches only the dead row, classifies the path as NotFound, and
`create_token` inserts — although a live token exists at the path — so
afterwards two live tokens coexist at the path. -/
theorem create_token_shadowed_insert :
    liveTok 10 tokFreshLive = true ∧
    tokFreshLive.path = ctShadow.path ∧
    get_valid_token [tokUsedExpired, tokFreshLive] "p" 10 =
      GetTokenResult.notFound ∧
    (create_token [tokUsedExpired, tokFreshLive] ctShadow 10 3).2 ≠
      CreateTokenResult.alreadyExist ∧
    ((create_token [tokUsedExpired, tokFreshLive] ctShadow 10 3).1.countP
      fun t => t.path = "p" && liveTok 10 t) = 2 := by decide

/-- C9: the sweep delete (`delete_file`) and the single-file read
(`AppState::get_blob`) dispatch a file to the backend whose identifier
equals the file's `backend_type`, but the zip-download path
(`get_files_zip`) sends a `"local_fs"` file to the garage backend and
rejects `"garage"` as an unknown backend. -/
theorem zip_download_dispatch_mismatch :
    deleteDispatch "local_fs" = some BackendKind.localFs ∧
    deleteDispatch "garage" = some BackendKind.garage ∧
    getBlobDispatch "local_fs" = some BackendKind.localFs ∧
    getBlobDispatch "garage" = some BackendKind.garage ∧
    zipReadDispatch "local_fs" = some BackendKind.garage ∧
    identifier BackendKind.garage ≠ "local_fs" ∧
    zipReadDispatch "garage" = none := by decide

/-- C10: the garage backend keys objects by the client filename alone
whenever one is supplied, and falls back to the token/attempt/index
derived name only without a filename; hence two distinct uploads under
different tokens carrying the same filename get the same
`{bucket, key}` locator. -/
theorem garage_key_filename_collision :
    (∀ (bucket name : String) (init : InitFile), init.fileName = some name →
      garageInitiateData bucket init = { bucket := bucket, key := name }) ∧
    (∀ (bucket : String) (init : InitFile), init.fileName = none →
      (garageInitiateData bucket init).key =
        defaultBlobName init.tokenId init.attemptCounter init.fileIndex) ∧
    (∃ i1 i2 : InitFile, i1.tokenId ≠ i2.tokenId ∧
      i1.fileName = some "report.pdf" ∧ i2.fileName = some "report.pdf" ∧
      garageInitiateData "vrac" i1 = garageInitiateData "vrac" i2) := by
  refine ⟨?_, ?_, ?_⟩
  · intro bucket name init h
    simp [garageInitiateData, garageKey, h]
  · intro bucket init h
    simp [garageInitiateData, garageKey, h]
  · exact ⟨⟨1, "p1", 1, 1, none, some "report.pdf"⟩,
      ⟨2, "p2", 3, 7, none, some "report.pdf"⟩, by decide, rfl, rfl, by decide⟩

/-- C10 witness: a concrete upload with a client filename is keyed by
that filename alone. -/
theorem garage_key_filename_collision_witness :
    garageInitiateData "vrac" ⟨1, "p", 1, 1, none, some "a.txt"⟩ =
      { bucket := "vrac", key := "a.txt" } :=
  garage_key_filename_collision.1 "vrac" "a.txt" ⟨1, "p", 1, 1, none, some "a.txt"⟩ rfl

/-- Fresh uploadable token for the C6 witness. -/
def w6Tok : DbToken :=
  { id := 1, path := "p", maxSizeMib := none, validUntil := 100, createdAt := 0,
    contentExpiresAfterHours := none, deletedAt := none, attemptCounter := 2,
    usedAt := none, contentExpiresAt := none, backendType := "local_fs" }

/-- C6: `initiate_upload` re-fetches the token by id requiring it not
deleted, strictly before `valid_until` and unused; on success the found
row satisfies exactly those conditions and the operation persists an
attempt counter incremented by exactly one for that token id, returning
a session carrying the new counter; when the re-fetch misses, it fails
with NoTokenFound and performs no update. -/
theorem initiate_upload_spec (tokens : List DbToken) (tok : DbToken) (now : Int) :
    (∀ t, tokens.find? (uploadableBy now tok.id) = some t →
      (t.id = tok.id ∧ t.deletedAt = none ∧ now < t.validUntil ∧ t.usedAt = none) ∧
      initiate_upload tokens tok now =
        some (tokens.map fun u =>
                if u.id = tok.id then { u with attemptCounter := t.attemptCounter + 1 }
                else u,
              { id := tok.id, path := tok.path,
                attemptCounter := t.attemptCounter + 1 })) ∧
    (tokens.find? (uploadableBy now tok.id) = none →
      initiate_upload tokens tok now = none) := by
  constructor
  · intro t hfind
    have hp := List.find?_some hfind
    simp only [uploadableBy, Bool.and_eq_true, decide_eq_true_eq,
      Option.isNone_iff_eq_none] at hp
    exact ⟨⟨hp.1.1.1, hp.1.1.2, hp.1.2, hp.2⟩, by simp only [initiate_upload, hfind]⟩
  · intro hfind
    simp only [initiate_upload, hfind]

/-- The C6 witness token after the counter bump. -/
def w6TokBumped : DbToken :=
  { w6Tok with attemptCounter := 3 }

/-- C6 witness: on a concrete fresh token with counter 2, initiating an
upload persists counter 3 and returns a session carrying counter 3. -/
theorem initiate_upload_spec_witness :
    initiate_upload [w6Tok] w6Tok 10 =
      some ([w6TokBumped], { id := 1, path := "p", attemptCounter := 3 }) :=
  (((initiate_upload_spec [w6Tok] w6Tok 10).1 w6Tok (by decide)).2).trans (by decide)

/-- Conversion of the joined WHERE clause of `get_files_to_delete` into
its propositional form. -/
lemma fileToDelete_iff (tks : List DbToken) (now : Int) (g : DbFile) :
    fileToDelete tks now g = true ↔
      ∃ t ∈ tks, t.id = g.tokenId ∧
        ((∃ e, t.contentExpiresAt = some e ∧ e ≤ now) ∨
         g.attemptCounter < t.attemptCounter ∨
         (t.usedAt = none ∧ t.validUntil ≤ now)) := by
  rw [fileToDelete, List.any_eq_true]
  constructor
  · rintro ⟨t, ht, hcond⟩
    rw [Bool.and_eq_true] at hcond
    obtain ⟨hid, hdisj⟩ := hcond
    refine ⟨t, ht, by simpa using hid, ?_⟩
    rw [Bool.or_eq_true, Bool.or_eq_true] at hdisj
    rcases hdisj with (hexp | hcnt) | hual
    · cases hoe : t.contentExpiresAt with
      | none => rw [hoe] at hexp; cases hexp
      | some e =>
        rw [hoe] at hexp
        exact Or.inl ⟨e, rfl, by simpa using hexp⟩
    · exact Or.inr (Or.inl (by simpa using hcnt))
    · rw [Bool.and_eq_true] at hual
      exact Or.inr (Or.inr ⟨by simpa using hual.1, by simpa using hual.2⟩)
  · rintro ⟨t, ht, hid, hdisj⟩
    refine ⟨t, ht, ?_⟩
    rw [Bool.and_eq_true]
    refine ⟨by simpa using hid, ?_⟩
    rw [Bool.or_eq_true, Bool.or_eq_true]
    rcases hdisj with ⟨e, hoe, he⟩ | hcnt | ⟨hu, hv⟩
    · exact Or.inl (Or.inl (by rw [hoe]; simpa using he))
    · exact Or.inl (Or.inr (by simpa using hcnt))
    · exact Or.inr (by rw [Bool.and_eq_true]; exact ⟨by simp [hu], by simpa using hv⟩)

/-- C7: `get_files_to_delete` returns exactly the files joined to a
token that is content-expired, or whose current attempt counter strictly
exceeds the file's, or that is unused and past `valid_until`; and after
`initiate_upload` runs twice on the same token, a file created under the
first attempt counter is returned at every query time, even though the
second attempt never completed. -/
theorem get_files_to_delete_spec
    (tokens tokens1 tokens2 : List DbToken) (tok : DbToken) (files : List DbFile)
    (ut1 ut2 : UploadToken) (now1 now2 : Int) (f : DbFile)
    (h1 : initiate_upload tokens tok now1 = some (tokens1, ut1))
    (h2 : initiate_upload tokens1 tok now2 = some (tokens2, ut2))
    (hf : f ∈ files) (hft : f.tokenId = tok.id)
    (hfa : f.attemptCounter = ut1.attemptCounter) :
    (∀ (tks : List DbToken) (fls : List DbFile) (now : Int) (g : DbFile),
      g ∈ get_files_to_delete tks fls now ↔
        g ∈ fls ∧ ∃ t ∈ tks, t.id = g.tokenId ∧
          ((∃ e, t.contentExpiresAt = some e ∧ e ≤ now) ∨
           g.attemptCounter < t.attemptCounter ∨
           (t.usedAt = none ∧ t.validUntil ≤ now))) ∧
    ∀ now3 : Int, f ∈ get_files_to_delete tokens2 files now3 := by
  have hchar : ∀ (tks : List DbToken) (fls : List DbFile) (now : Int) (g : DbFile),
      g ∈ get_files_to_delete tks fls now ↔
        g ∈ fls ∧ ∃ t ∈ tks, t.id = g.tokenId ∧
          ((∃ e, t.contentExpiresAt = some e ∧ e ≤ now) ∨
           g.attemptCounter < t.attemptCounter ∨
           (t.usedAt = none ∧ t.validUntil ≤ now)) := by
    intro tks fls now g
    rw [get_files_to_delete, List.mem_filter, fileToDelete_iff]
  refine ⟨hchar, ?_⟩
  intro now3
  -- unpack the first initiation
  rw [initiate_upload] at h1
  cases hfind1 : tokens.find? (uploadableBy now1 tok.id) with
  | none => rw [hfind1] at h1; cases h1
  | some t1 =>
    rw [hfind1] at h1
    injection h1 with h1'
    injection h1' with htokens1 hut1
    -- unpack the second initiation
    rw [initiate_upload] at h2
    cases hfind2 : tokens1.find? (uploadableBy now2 tok.id) with
    | none => rw [hfind2] at h2; cases h2
    | some t2 =>
      rw [hfind2] at h2
      injection h2 with h2'
      injection h2' with htokens2 hut2
      have ht2mem : t2 ∈ tokens1 := List.mem_of_find?_eq_some hfind2
      have ht2id : t2.id = tok.id := by
        have hp := List.find?_some hfind2
        simp only [uploadableBy, Bool.and_eq_true, decide_eq_true_eq] at hp
        exact hp.1.1.1
      -- every row of tokens1 with the token's id carries ut1's counter
      have ht2cnt : t2.attemptCounter = ut1.attemptCounter := by
        rw [← htokens1] at ht2mem
        obtain ⟨u, hu, hmap⟩ := List.mem_map.mp ht2mem
        by_cases hid : u.id = tok.id
        · rw [if_pos (by simpa using hid)] at hmap
          rw [← hmap, ← hut1]
        · rw [if_neg (by simpa using hid)] at hmap
          rw [← hmap] at ht2id
          exact absurd ht2id hid
      -- the updated row witnesses the orphan condition in tokens2
      have hwit : ({ t2 with attemptCounter := t2.attemptCounter + 1 }) ∈ tokens2 := by
        rw [← htokens2]
        have := List.mem_map_of_mem
          (fun u => if u.id = tok.id then
            { u with attemptCounter := t2.attemptCounter + 1 } else u) ht2mem
        simpa [ht2id] using this
      rw [hchar]
      refine ⟨hf, ⟨{ t2 with attemptCounter := t2.attemptCounter + 1 }, hwit, ?_, ?_⟩⟩
      · simpa [ht2id] using hft.symm
      · exact Or.inr (Or.inl (by simp [hfa, ht2cnt]))

/-- Fresh token for the C7 witness (counter 0). -/
def w7Tok : DbToken :=
  { id := 1, path := "p", maxSizeMib := none, validUntil := 100, createdAt := 0,
    contentExpiresAfterHours := some 1, deletedAt := none, attemptCounter := 0,
    usedAt := none, contentExpiresAt := none, backendType := "local_fs" }

/-- The C7 witness token after the first initiation. -/
def w7TokA1 : DbToken :=
  { w7Tok with attemptCounter := 1 }

/-- The C7 witness token after the second initiation. -/
def w7TokA2 : DbToken :=
  { w7Tok with attemptCounter := 2 }

/-- File created under the first attempt of the C7 witness. -/
def w7File : DbFile :=
  { id := 30, tokenId := 1, attemptCounter := 1, mimeType := none, name := none,
    backendType := "local_fs", backendData := "/d/1_01_001", createdAt := 1,
    completedAt := none }

/-- C7 witness: after two initiations on the same token, the file created
under the first attempt counter is due for deletion even before any
expiry. -/
theorem get_files_to_delete_spec_witness :
    w7File ∈ get_files_to_delete [w7TokA2] [w7File] 5 :=
  (get_files_to_delete_spec [w7Tok] [w7TokA1] [w7TokA2] w7Tok [w7File]
    { id := 1, path := "p", attemptCounter := 1 }
    { id := 1, path := "p", attemptCounter := 2 }
    1 2 w7File (by decide) (by decide) (by decide) (by decide) (by decide)).2 5

/-- Conversion of the token-side join conditions of `get_valid_file`
into their propositional form. -/
lemma servableToken_iff (now : Int) (path : String) (t : DbToken) :
    servableToken now path t = true ↔
      (t.path = path ∧ t.deletedAt = none ∧ t.usedAt ≠ none ∧
        (t.contentExpiresAfterHours = none ∨
          ∃ e, t.contentExpiresAt = some e ∧ now < e)) := by
  cases hh : t.contentExpiresAfterHours with
  | none =>
    simp [servableToken, hh, Option.isNone_iff_eq_none, Option.isSome_iff_ne_none,
      and_assoc]
  | some v =>
    cases he : t.contentExpiresAt with
    | none =>
      simp [servableToken, hh, he, Option.isNone_iff_eq_none,
        Option.isSome_iff_ne_none]
    | some e =>
      simp [servableToken, hh, he, Option.isNone_iff_eq_none,
        Option.isSome_iff_ne_none, and_assoc]

/-- C8: `get_valid_file` returns a file if and only if its id matches,
it is completed, and some token at the path owns it while being used,
not soft-deleted and not content-expired at the query time; when every
token at the path is still fresh, the lookup returns none whatever the
file id. -/
theorem get_valid_file_spec (tokens : List DbToken) (files : List DbFile)
    (path : String) (fid : Int) (now : Int)
    (huniq : ∀ f ∈ files, ∀ g ∈ files, f.id = g.id → f = g) :
    (∀ f, get_valid_file tokens files path fid now = some f ↔
      (f ∈ files ∧ f.id = fid ∧ f.completedAt ≠ none ∧
       ∃ t ∈ tokens, t.id = f.tokenId ∧ t.path = path ∧ t.deletedAt = none ∧
         t.usedAt ≠ none ∧
         (t.contentExpiresAfterHours = none ∨
           ∃ e, t.contentExpiresAt = some e ∧ now < e))) ∧
    ((∀ t ∈ tokens, t.path = path → t.usedAt = none) →
      get_valid_file tokens files path fid now = none) := by
  have hpred : ∀ f : DbFile,
      (f.id = fid && f.completedAt.isSome &&
        tokens.any fun t => t.id = f.tokenId && servableToken now path t) = true ↔
      (f.id = fid ∧ f.completedAt ≠ none ∧
        ∃ t ∈ tokens, t.id = f.tokenId ∧ t.path = path ∧ t.deletedAt = none ∧
          t.usedAt ≠ none ∧
          (t.contentExpiresAfterHours = none ∨
            ∃ e, t.contentExpiresAt = some e ∧ now < e)) := by
    intro f
    simp only [Bool.and_eq_true, decide_eq_true_eq, Option.isSome_iff_ne_none,
      List.any_eq_true, and_assoc]
    constructor
    · rintro ⟨hid, hcomp, t, ht, htid, hserv⟩
      obtain ⟨hpath, hdel, hused, hexp⟩ := (servableToken_iff now path t).mp hserv
      exact ⟨hid, hcomp, t, ht, htid, hpath, hdel, hused, hexp⟩
    · rintro ⟨hid, hcomp, t, ht, htid, hpath, hdel, hused, hexp⟩
      exact ⟨hid, hcomp, t, ht, htid,
        (servableToken_iff now path t).mpr ⟨hpath, hdel, hused, hexp⟩⟩
  constructor
  · intro f
    constructor
    · intro hsome
      have hmem := List.mem_of_find?_eq_some hsome
      have hp := List.find?_some hsome
      obtain ⟨hid, hrest⟩ := (hpred f).mp hp
      exact ⟨hmem, hid, hrest⟩
    · rintro ⟨hmem, hid, hrest⟩
      refine find?_eq_some_of_unique hmem ((hpred f).mpr ⟨hid, hrest⟩) ?_
      intro g hg hpg
      obtain ⟨hgid, _⟩ := (hpred g).mp hpg
      exact huniq g hg f hmem (hgid.trans hid.symm)
  · intro hfre
    rw [get_valid_file, List.find?_eq_none]
    intro f _
    intro hp
    obtain ⟨_, _, t, ht, _, hpath, _, hused, _⟩ := (hpred f).mp hp
    exact hused (hfre t ht hpath)

/-- Used, never-expiring token for the C8 witness. -/
def w8Tok : DbToken :=
  { id := 1, path := "p", maxSizeMib := none, validUntil := 10, createdAt := 0,
    contentExpiresAfterHours := none, deletedAt := none, attemptCounter := 1,
    usedAt := some 5, contentExpiresAt := none, backendType := "local_fs" }

/-- Completed file of the C8 witness token. -/
def w8File : DbFile :=
  { id := 40, tokenId := 1, attemptCounter := 1, mimeType := none, name := none,
    backendType := "local_fs", backendData := "/d/1_01_001", createdAt := 6,
    completedAt := some 7 }

/-- C8 witness: a completed file under a used, unexpired token at the
path is served. -/
theorem get_valid_file_spec_witness :
    get_valid_file [w8Tok] [w8File] "p" 40 50 = some w8File :=
  ((get_valid_file_spec [w8Tok] [w8File] "p" 40 50 (by decide)).1 w8File).mpr
    ⟨by decide, by decide, by decide,
     w8Tok, by decide, by decide, by decide, by decide, by decide, Or.inl rfl⟩

/-- One field step leaves the token table alone. -/
lemma handleField_tokens (b : String) (ut : UploadToken) (now : Int)
    (st : OrchState) (idx : Nat) (fld : UploadField) :
    (handleField b ut now st idx fld).1.tokens = st.tokens := by
  simp only [handleField]
  split <;> rfl

/-- One field step advances the file rowid by one. -/
lemma handleField_nextFileId (b : String) (ut : UploadToken) (now : Int)
    (st : OrchState) (idx : Nat) (fld : UploadField) :
    (handleField b ut now st idx fld).1.nextFileId = st.nextFileId + 1 := by
  simp only [handleField]
  split <;> rfl

/-- One field step copies exactly the field's bytes. -/
lemma handleField_bytes (b : String) (ut : UploadToken) (now : Int)
    (st : OrchState) (idx : Nat) (fld : UploadField) :
    (handleField b ut now st idx fld).2 = fld.size := by
  simp only [handleField]
  split <;> simp_all

/-- Every file row after one field step either keeps a previous row's id
or carries the fresh rowid. -/
lemma handleField_files_mem {b : String} {ut : UploadToken} {now : Int}
    {st : OrchState} {idx : Nat} {fld : UploadField} {f : DbFile}
    (hf : f ∈ (handleField b ut now st idx fld).1.files) :
    (∃ g ∈ st.files, f.id = g.id) ∨ f.id = st.nextFileId := by
  simp only [handleField, create_file] at hf
  split at hf
  · simp only [delete_files, List.mem_filter, List.mem_append,
      List.mem_singleton] at hf
    rcases hf.1 with hg | hnew
    · exact Or.inl ⟨f, hg, rfl⟩
    · exact Or.inr (by rw [hnew])
  · simp only [finalise_file_upload, List.mem_map, List.mem_append,
      List.mem_singleton] at hf
    obtain ⟨x, hx, hmap⟩ := hf
    have hid : f.id = x.id := by
      by_cases hc : x.id = st.nextFileId
      · rw [if_pos (by simpa using hc)] at hmap
        rw [← hmap]
      · rw [if_neg (by simpa using hc)] at hmap
        rw [← hmap]
    rcases hx with hg | hnew
    · exact Or.inl ⟨x, hg, hid⟩
    · exact Or.inr (by rw [hid, hnew])

/-- A zero-byte field leaves no row with the fresh rowid: the created row
is deleted again inside the same step. -/
lemma handleField_zero_no_new (b : String) (ut : UploadToken) (now : Int)
    (st : OrchState) (idx : Nat) (fld : UploadField) (hz : fld.size = 0) :
    ∀ f ∈ (handleField b ut now st idx fld).1.files, f.id ≠ st.nextFileId := by
  intro f hf
  simp only [handleField, hz, create_file, reduceIte] at hf
  simp only [delete_files, List.mem_filter] at hf
  simpa using hf.2

/-- Row ids absent before a field step and distinct from the fresh rowid
stay absent. -/
lemma handleField_preserve_id {b : String} {ut : UploadToken} {now : Int}
    {st : OrchState} {idx : Nat} {fld : UploadField} {n : Int}
    (hn : ∀ f ∈ st.files, f.id ≠ n) (hne : n ≠ st.nextFileId) :
    ∀ f ∈ (handleField b ut now st idx fld).1.files, f.id ≠ n := by
  intro f hf
  rcases handleField_files_mem hf with ⟨g, hg, hid⟩ | hid
  · rw [hid]; exact hn g hg
  · rw [hid]; exact fun h => hne h.symm

/-- Row ids stay below the next rowid across a field step. -/
lemma handleField_id_lt {b : String} {ut : UploadToken} {now : Int}
    {st : OrchState} {idx : Nat} {fld : UploadField}
    (hid : ∀ f ∈ st.files, f.id < st.nextFileId) :
    ∀ f ∈ (handleField b ut now st idx fld).1.files, f.id < st.nextFileId + 1 := by
  intro f hf
  rcases handleField_files_mem hf with ⟨g, hg, heq⟩ | heq
  · rw [heq]; exact lt_trans (hid g hg) (by omega)
  · rw [heq]; omega

/-- Every blob present after a field step was present before, or was
written by this field and the field was non-empty. -/
lemma handleField_blobs_mem {b : String} {ut : UploadToken} {now : Int}
    {st : OrchState} {idx : Nat} {fld : UploadField} {q : String}
    (hq : q ∈ (handleField b ut now st idx fld).1.blobs) :
    q ∈ st.blobs ∨
      (fld.size ≠ 0 ∧ q = localFsPath b ut.id ut.attemptCounter idx) := by
  simp only [handleField, create_file] at hq
  split at hq
  · left
    simp only [List.mem_filter] at hq
    obtain ⟨hbase, hne⟩ := hq
    split at hbase
    · exact hbase
    · rcases List.mem_append.mp hbase with h | h
      · exact h
      · rw [List.mem_singleton] at h
        exact absurd (by simpa using hne) (by simp [h])
  · rename_i hsz
    split at hq
    · exact Or.inl hq
    · rcases List.mem_append.mp hq with h | h
      · exact Or.inl h
      · exact Or.inr ⟨hsz, List.mem_singleton.mp h⟩

/-- Invariant of the field loop of `post_upload_form`: the token table is
untouched; the rowid counter advances once per field; row ids stay below
the counter; the total is the sum of the field sizes; absent row ids stay
absent; every blob came from before the request or from a non-empty
field; and no row survives with the rowid allocated to a zero-byte
field. -/
lemma uploadFields_inv (b : String) (ut : UploadToken) (now : Int)
    (fields : List UploadField) :
    ∀ (st : OrchState) (idx : Nat),
      (uploadFields b ut now st idx fields).1.tokens = st.tokens ∧
      (uploadFields b ut now st idx fields).1.nextFileId =
        st.nextFileId + fields.length ∧
      (uploadFields b ut now st idx fields).2 =
        (fields.map fun fld => fld.size).sum ∧
      ((∀ f ∈ st.files, f.id < st.nextFileId) →
        ∀ f ∈ (uploadFields b ut now st idx fields).1.files,
          f.id < st.nextFileId + fields.length) ∧
      (∀ n : Int, (∀ f ∈ st.files, f.id ≠ n) → n < st.nextFileId →
        ∀ f ∈ (uploadFields b ut now st idx fields).1.files, f.id ≠ n) ∧
      (∀ q ∈ (uploadFields b ut now st idx fields).1.blobs,
        q ∈ st.blobs ∨ ∃ k, ∃ hk : k < fields.length,
          (fields.get ⟨k, hk⟩).size ≠ 0 ∧
          q = localFsPath b ut.id ut.attemptCounter (idx + k + 1)) ∧
      ((∀ f ∈ st.files, f.id < st.nextFileId) →
        ∀ j, ∀ hj : j < fields.length, (fields.get ⟨j, hj⟩).size = 0 →
          ∀ f ∈ (uploadFields b ut now st idx fields).1.files,
            f.id ≠ st.nextFileId + j) := by
  induction fields with
  | nil =>
    intro st idx
    refine ⟨rfl, by simp [uploadFields], rfl, ?_, ?_, ?_, ?_⟩
    · intro h f hf
      simpa using h f hf
    · intro n hn _ f hf
      exact hn f hf
    · intro q hq
      exact Or.inl hq
    · intro _ j hj
      exact absurd hj (by simp)
  | cons fld rest ih =>
    intro st idx
    obtain ⟨ih1, ih2, ih3, ih4, ih5, ih6, ih7⟩ :=
      ih (handleField b ut now st (idx + 1) fld).1 (idx + 1)
    have hnext := handleField_nextFileId b ut now st (idx + 1) fld
    have hid1 : (∀ f ∈ st.files, f.id < st.nextFileId) →
        ∀ f ∈ (handleField b ut now st (idx + 1) fld).1.files,
          f.id < (handleField b ut now st (idx + 1) fld).1.nextFileId := by
      intro hid
      rw [hnext]
      exact handleField_id_lt hid
    refine ⟨?_, ?_, ?_, ?_, ?_, ?_, ?_⟩
    · rw [uploadFields]
      rw [ih1, handleField_tokens]
    · rw [uploadFields]
      rw [ih2, hnext, List.length_cons]
      omega
    · rw [uploadFields]
      rw [ih3, handleField_bytes]
      simp
    · intro hid f hf
      rw [uploadFields] at hf
      have := ih4 (hid1 hid) f hf
      rw [hnext] at this
      rw [List.length_cons]
      omega
    · intro n hn hlt f hf
      rw [uploadFields] at hf
      refine ih5 n (handleField_preserve_id hn (by omega)) ?_ f hf
      rw [hnext]
      omega
    · intro q hq
      rw [uploadFields] at hq
      rcases ih6 q hq with hbase | ⟨k, hk, hsz, hpath⟩
      · rcases handleField_blobs_mem hbase with h | ⟨hsz, hpath⟩
        · exact Or.inl h
        · exact Or.inr ⟨0, by simp, by simpa using hsz, by simpa using hpath⟩
      · refine Or.inr ⟨k + 1, by simpa using Nat.succ_lt_succ hk, ?_, ?_⟩
        · simpa using hsz
        · rw [hpath]
          congr 1
          omega
    · intro hid j hj hz f hf
      rw [uploadFields] at hf
      cases j with
      | zero =>
        have hz0 : fld.size = 0 := by simpa using hz
        have hstep := handleField_zero_no_new b ut now st (idx + 1) fld hz0
        have := ih5 st.nextFileId hstep (by rw [hnext]; omega) f hf
        simpa using this
      | succ j' =>
        have hj' : j' < rest.length := by simpa using Nat.lt_of_succ_lt_succ hj
        have hz' : (rest.get ⟨j', hj'⟩).size = 0 := by simpa using hz
        have := ih7 (hid1 hid) j' hj' hz' f hf
        rw [hnext] at this
        intro hcontra
        exact this (by rw [hcontra]; omega)

/-- The file table produced by `post_upload_form` is the one produced by
the field loop: finalising the token touches only the token table. -/
lemma post_upload_form_files (b path : String) (now : Int) (st : OrchState)
    (fields : List UploadField) (tok : DbToken) (tokens1 : List DbToken)
    (ut : UploadToken)
    (hfresh : get_valid_token st.tokens path now = GetTokenResult.fresh tok)
    (hinit : initiate_upload st.tokens tok now = some (tokens1, ut)) :
    (post_upload_form b path now st fields).1.files =
      (uploadFields b ut now { st with tokens := tokens1 } 0 fields).1.files ∧
    (post_upload_form b path now st fields).1.blobs =
      (uploadFields b ut now { st with tokens := tokens1 } 0 fields).1.blobs := by
  simp only [post_upload_form, hfresh, hinit]
  split
  · exact ⟨rfl, rfl⟩
  · split <;> exact ⟨rfl, rfl⟩

/-- C2: in `post_upload_form`, a multipart field yielding zero bytes has
its file row deleted instead of completed (no surviving row carries the
rowid allocated to that field) and its empty blob deleted (every blob
present after the request was present before it or was written by a
field that yielded bytes); and a request whose fields yield zero bytes
in total never calls `finalise_token_upload`: it still redirects, and
every row of the token keeps `used_at` NULL, so the token stays fresh
and reusable. -/
theorem post_upload_form_spec (b path : String) (now : Int) (st : OrchState)
    (fields : List UploadField) (tok : DbToken) (tokens1 : List DbToken)
    (ut : UploadToken)
    (hfresh : get_valid_token st.tokens path now = GetTokenResult.fresh tok)
    (hinit : initiate_upload st.tokens tok now = some (tokens1, ut))
    (hids : ∀ f ∈ st.files, f.id < st.nextFileId) :
    (∀ j, ∀ hj : j < fields.length, (fields.get ⟨j, hj⟩).size = 0 →
      ∀ f ∈ (post_upload_form b path now st fields).1.files,
        f.id ≠ st.nextFileId + j) ∧
    (∀ q ∈ (post_upload_form b path now st fields).1.blobs,
      q ∈ st.blobs ∨ ∃ k, ∃ hk : k < fields.length,
        (fields.get ⟨k, hk⟩).size ≠ 0 ∧
        q = localFsPath b ut.id ut.attemptCounter (k + 1)) ∧
    ((∀ fld ∈ fields, fld.size = 0) →
      (∀ t ∈ st.tokens, t.id = tok.id → t.usedAt = none) →
      (post_upload_form b path now st fields).2 = UploadOutcome.redirect path ∧
      ∀ t ∈ (post_upload_form b path now st fields).1.tokens,
        t.id = tok.id → t.usedAt = none) := by
  obtain ⟨hfiles, hblobs⟩ :=
    post_upload_form_files b path now st fields tok tokens1 ut hfresh hinit
  obtain ⟨i1, i2, i3, i4, i5, i6, i7⟩ :=
    uploadFields_inv b ut now fields { st with tokens := tokens1 } 0
  refine ⟨?_, ?_, ?_⟩
  · intro j hj hz f hf
    rw [hfiles] at hf
    exact i7 hids j hj hz f hf
  · intro q hq
    rw [hblobs] at hq
    rcases i6 q hq with h | ⟨k, hk, hsz, hpath⟩
    · exact Or.inl h
    · exact Or.inr ⟨k, hk, hsz, by simpa using hpath⟩
  · intro h0 hun
    have hsum : (uploadFields b ut now { st with tokens := tokens1 } 0 fields).2
        = 0 := by
      rw [i3]
      apply List.sum_eq_zero
      intro x hx
      obtain ⟨fld, hfld, rfl⟩ := List.mem_map.mp hx
      exact h0 fld hfld
    have hfin : (post_upload_form b path now st fields) =
        ((uploadFields b ut now { st with tokens := tokens1 } 0 fields).1,
          UploadOutcome.redirect path) := by
      simp only [post_upload_form, hfresh, hinit]
      rw [if_pos hsum]
    have htokens1 : ∀ t ∈ tokens1, t.id = tok.id → t.usedAt = none := by
      rw [initiate_upload] at hinit
      cases hfind : st.tokens.find? (uploadableBy now tok.id) with
      | none => rw [hfind] at hinit; cases hinit
      | some t1 =>
        rw [hfind] at hinit
        injection hinit with hpair
        injection hpair with htoks _
        intro t ht htid
        rw [← htoks] at ht
        obtain ⟨u, hu, hmap⟩ := List.mem_map.mp ht
        by_cases hc : u.id = tok.id
        · rw [if_pos (by simpa using hc)] at hmap
          rw [← hmap]
          exact hun u hu hc
        · rw [if_neg (by simpa using hc)] at hmap
          rw [← hmap] at htid ⊢
          exact absurd htid hc
    constructor
    · rw [hfin]
    · intro t ht htid
      rw [hfin] at ht
      rw [i1] at ht
      exact htokens1 t ht htid

/-- Fresh token of the C2 witness. -/
def w2Tok : DbToken :=
  { id := 1, path := "p", maxSizeMib := none, validUntil := 100, createdAt := 0,
    contentExpiresAfterHours := some 2, deletedAt := none, attemptCounter := 0,
    usedAt := none, contentExpiresAt := none, backendType := "local_fs" }

/-- The C2 witness token after `initiate_upload`. -/
def w2TokBumped : DbToken :=
  { w2Tok with attemptCounter := 1 }

/-- Initial orchestrator state of the C2 witness. -/
def w2St : OrchState :=
  { tokens := [w2Tok], files := [], blobs := [], nextFileId := 10 }

/-- C2 witness: a request with a single zero-byte field still redirects
(the token is not finalised). -/
theorem post_upload_form_spec_witness :
    (post_upload_form "/d" "p" 5 w2St [⟨0, none, none⟩]).2 =
      UploadOutcome.redirect "p" :=
  ((post_upload_form_spec "/d" "p" 5 w2St [⟨0, none, none⟩] w2Tok [w2TokBumped]
      { id := 1, path := "p", attemptCounter := 1 }
      (by decide) (by decide) (by intro f hf; cases hf)).2.2
    (by intro fld hfld; rw [List.mem_singleton.mp hfld])
    (by intro t ht _; cases List.mem_singleton.mp ht; rfl)).1

end Vrac
